import Mathlib

/-!
Shallow embedding of the Signal K plugin `signalk-engine-hours-keepalive`
(source file src/index.js). Pure functions model the per-engine state
mutation performed by the event-loop callbacks; JavaScript timers are
modelled by storing the absolute fire instant (in milliseconds, matching
the `seconds * 1000` arguments passed to setTimeout / setInterval) inside
the engine record, and a step function fires every timer that is due at a
given instant. A timer that fires is consumed (the armed deadline is
removed), exactly as a JavaScript timeout that has run is no longer
pending.
-/

namespace Keepalive

/-- JavaScript values as they appear on Signal K streams: numbers, strings,
or the JS null. Absence (undefined) is modelled with Option at use sites. -/
inductive JVal where
  | num  : Int → JVal
  | str  : String → JVal
  | null : JVal
  deriving Repr, DecidableEq

/-- Source metadata attached to an update: an optional label and an optional
src identifier. The src field is kept in its string form because index.js
only ever compares String(source.src). -/
structure Source where
  label : Option String
  src   : Option String
  deriving Repr, DecidableEq

/-- String(x) applied to a possibly-undefined string: String(undefined) is
the eight-character text undefined. -/
def jsStringOfOptStr : Option String → String
  | none => "undefined"
  | some s => s

/-- plugin.id from index.js line 10. -/
def pluginId : String := "signalk-engine-hours-keepalive"

/-- configuration entry for one engine (plugin.schema engines items). -/
structure EngineConfig where
  name : Option String := none
  path : Option String := none
  engineSource : Option String := none
  deriving Repr, DecidableEq

/-- per-engine state created by createEngine (index.js lines 185-195).
The config object is flattened to the two fields the runtime logic reads
(config.path, config.engineSource); createEngine only builds engines whose
path passed validation, so path is stored as a plain string. The timeout
and intervalNext fields hold the absolute fire instant of the armed
silence timer and the next injection tick, or none when no such timer is
pending. -/
structure Engine where
  path : String
  engineSource : Option String
  signalkId : String
  basePath : String
  lastValue : Option Int
  lastKnown : List (String × JVal)
  timeout : Option Nat
  intervalNext : Option Nat
  isInjecting : Bool
  seenSources : List (Option String × Source)
  deriving Repr, DecidableEq

/-- plugin options (plugin.schema top level). Numeric options are modelled
as naturals; keepaliveFields is none when the option is absent so that the
code-side default applies. -/
structure Options where
  startDelaySeconds : Nat := 6
  transmitIntervalSeconds : Nat := 3
  discoverOnly : Bool := false
  keepaliveFields : Option (List String) := none
  engines : List EngineConfig := []
  deriving Repr, DecidableEq

/-- options.keepaliveFields or its default (index.js lines 221 and 322). -/
def effectiveFields (o : Options) : List String :=
  o.keepaliveFields.getD ["revolutions", "oilPressure", "fuelRate"]

/-- association-list lookup standing in for reading engine.lastKnown[field];
none models undefined. -/
def lookupKnown : List (String × JVal) → String → Option JVal
  | [], _ => none
  | (g, w) :: rest, f => if g = f then some w else lookupKnown rest f

/-- association-list update standing in for engine.lastKnown[field] = val. -/
def setKnown : List (String × JVal) → String → JVal → List (String × JVal)
  | [], f, v => [(f, v)]
  | (g, w) :: rest, f, v =>
    if g = f then (f, v) :: rest else (g, w) :: setKnown rest f v

/-- key used by recordSource (index.js line 401): source.label || source.src,
where an absent or empty label is falsy. -/
def sourceKey (s : Source) : Option String :=
  match s.label with
  | some l => if l = "" then s.src else some l
  | none => s.src

/-- recordSource (index.js lines 399-405): remember every distinct source
seen on the runtime path; Map.set on a fresh key appends. -/
def recordSource (e : Engine) (source : Option Source) : Engine :=
  match source with
  | none => e
  | some s =>
    if e.seenSources.any (fun p => decide (p.1 = sourceKey s)) then e
    else { e with seenSources := e.seenSources ++ [(sourceKey s, s)] }

/-- test on index.js line 265: source && source.label === plugin.id. -/
def isSelfLabel (source : Option Source) : Bool :=
  match source with
  | some s => decide (s.label = some pluginId)
  | none => false

/-- isRealEngineSource (index.js lines 407-415). A missing configured
engineSource, or an empty one, is falsy and accepts every source. -/
def isRealEngineSource (e : Engine) (source : Option Source) : Bool :=
  match source with
  | none => true
  | some s =>
    if s.label = some pluginId then false
    else
      match e.engineSource with
      | none => true
      | some cfg =>
        if cfg = "" then true
        else decide (s.label = some cfg) || decide (jsStringOfOptStr s.src = cfg)

/-- one path/value pair inside a published delta. -/
structure PathValue where
  path : String
  value : JVal
  deriving Repr, DecidableEq

/-- published delta (index.js lines 344-353); the wall-clock timestamp
string is omitted from the model. -/
structure Delta where
  context : String
  sourceLabel : String
  values : List PathValue
  deriving Repr, DecidableEq

/-- value placed on the primary path by emitDelta line 319: engine.lastValue
is a number or the JS null. -/
def jvalOfLastValue : Option Int → JVal
  | some n => JVal.num n
  | none => JVal.null

/-- body of the fields.forEach loop in emitDelta (index.js lines 324-342):
active fields are forced to 0, passive fields replay lastKnown when it is
defined; companionRaw computes the val and suffix pair. -/
def companionRaw (e : Engine) (field : String) : JVal × String :=
  if field = "revolutions" then (JVal.num 0, "revolutions")
  else if field = "oilPressure" then (JVal.num 0, "oilPressure")
  else if field = "fuelRate" then (JVal.num 0, "fuel.rate")
  else
    match lookupKnown e.lastKnown field with
    | some v =>
      (v, if field = "oilTemperature" then "oilTemperature"
          else if field = "temperature" then "temperature" else "")
    | none => (JVal.null, "")

/-- guard at the end of the loop body (index.js lines 339-341). -/
def companionEntry (e : Engine) (field : String) : Option PathValue :=
  if (companionRaw e field).1 ≠ JVal.null ∧ (companionRaw e field).2 ≠ "" then
    some ⟨e.basePath ++ "." ++ (companionRaw e field).2, (companionRaw e field).1⟩
  else none

/-- emitDelta (index.js lines 314-356): one delta whose first entry is the
primary path with lastValue unchanged, followed by the companion entries,
declared under the plugin source label. -/
def emitDelta (fields : List String) (e : Engine) : Delta :=
  { context := "vessels.self"
    sourceLabel := pluginId
    values := ⟨e.path, jvalOfLastValue e.lastValue⟩ :: fields.filterMap (companionEntry e) }

/-- resetSilenceTimer (index.js lines 282-289), called at instant t (ms):
any pending timeout is cleared and a fresh one is armed at
t + startDelaySeconds * 1000. -/
def resetSilenceTimer (o : Options) (t : Nat) (e : Engine) : Engine :=
  { e with timeout := some (t + o.startDelaySeconds * 1000) }

/-- stopInjection (index.js lines 305-312). -/
def stopInjection (e : Engine) : Engine :=
  { e with intervalNext := none, timeout := none, isInjecting := false }

/-- startInjection (index.js lines 291-303), running at instant t: guarded
on already injecting or an absent lastValue; emits once immediately and
schedules the ticker at t + transmitIntervalSeconds * 1000. -/
def startInjection (o : Options) (t : Nat) (e : Engine) : Engine × List Delta :=
  if e.isInjecting = true ∨ e.lastValue = none then (e, [])
  else
    let e1 := { e with isInjecting := true }
    ({ e1 with intervalNext := some (t + o.transmitIntervalSeconds * 1000) },
     [emitDelta (effectiveFields o) e1])

/-- handleRuntime (index.js lines 258-280), processing an inbound value with
its source metadata (meta.source) at instant t. -/
def handleRuntime (o : Options) (t : Nat) (e : Engine) (value : JVal)
    (source : Option Source) : Engine :=
  match value with
  | JVal.num n =>
    let e1 := recordSource e source
    if isSelfLabel source then e1
    else if !isRealEngineSource e1 source then e1
    else
      let e2 := { e1 with lastValue := some n }
      let e3 := if e2.isInjecting then stopInjection e2 else e2
      resetSilenceTimer o t e3
  | _ => e

/-- firing of the silence timeout due at instant t: the armed timer is
consumed and the setTimeout callback (index.js lines 285-288) runs. -/
def fireTimeoutAt (o : Options) (t : Nat) (e : Engine) : Engine × List Delta :=
  if e.timeout = some t then startInjection o t { e with timeout := none }
  else (e, [])

/-- firing of the injection ticker due at instant t: the setInterval
callback (index.js line 299) emits one delta and the ticker stays armed
one transmit interval later. -/
def fireIntervalAt (o : Options) (t : Nat) (e : Engine) : Engine × List Delta :=
  if e.intervalNext = some t then
    ({ e with intervalNext := some (t + o.transmitIntervalSeconds * 1000) },
     [emitDelta (effectiveFields o) e])
  else (e, [])

/-- one evaluation instant with no inbound genuine event: every timer due
at t fires. -/
def stepAt (o : Options) (t : Nat) (e : Engine) : Engine × List Delta :=
  let r1 := fireTimeoutAt o t e
  let r2 := fireIntervalAt o t r1.1
  (r2.1, r1.2 ++ r2.2)

/-- state reached after the instants 0, 1, ..., t-1 have been processed with
no inbound genuine event (the channel is silent). -/
def runSilent (o : Options) (e : Engine) : Nat → Engine
  | 0 => e
  | t + 1 => (stepAt o t (runSilent o e t)).1

/-- deltas the plugin publishes at instant t during a silent run. -/
def emitsAt (o : Options) (e : Engine) (t : Nat) : List Delta :=
  (stepAt o t (runSilent o e t)).2

/-- state of a channel that entered injection, whose ticker is due at m. -/
def injState (e0 : Engine) (m : Nat) : Engine :=
  { e0 with isInjecting := true, timeout := none, intervalNext := some m }

/-- callback of the companion-field subscription (index.js lines 238-240):
every value arriving on the companion path is stored, the stream delivers
no source metadata to this handler. -/
def companionOnValue (e : Engine) (field : String) (val : JVal) : Engine :=
  { e with lastKnown := setKnown e.lastKnown field val }

/-- switch statement of the subscribe loop (index.js lines 225-232) mapping
a configured field name to its path suffix; unknown names are skipped. -/
def subscribeSuffix (field : String) : Option String :=
  if field = "revolutions" then some "revolutions"
  else if field = "oilPressure" then some "oilPressure"
  else if field = "oilTemperature" then some "oilTemperature"
  else if field = "temperature" then some "temperature"
  else if field = "fuelRate" then some "fuel.rate"
  else none

/-- membership test of index.js line 235: the fields handled by forcing 0. -/
def activeField (field : String) : Bool :=
  decide (field = "revolutions") || decide (field = "oilPressure") ||
    decide (field = "fuelRate")

/-- companion paths for which subscribe registers a lastKnown-updating
stream handler (index.js lines 223-242). -/
def companionSubPaths (o : Options) (e : Engine) : List String :=
  (effectiveFields o).filterMap fun field =>
    match subscribeSuffix field with
    | none => none
    | some suffix =>
      if activeField field then none
      else some (e.basePath ++ "." ++ suffix)

/-- configured field names for which subscribe registers a lastKnown-updating
stream handler. -/
def lastKnownSubscribedFields (o : Options) : List String :=
  (effectiveFields o).filter fun field =>
    (subscribeSuffix field).isSome && !activeField field

/-- subscribe (index.js lines 209-253), run at creation instant t: returns
the engine (with the cold-start silence timer armed when a restored value
exists) together with the list of paths subscribed to. -/
def subscribe (o : Options) (t : Nat) (e : Engine) : Engine × List String :=
  let subs := e.path :: companionSubPaths o e
  let e2 := if e.lastValue.isSome then resetSilenceTimer o t e else e
  (e2, subs)

/-- helper for splitDots, accumulating the current segment reversed. -/
def splitDotsAux : List Char → List Char → List String
  | [], acc => [String.mk acc.reverse]
  | c :: rest, acc =>
    if c = '.' then String.mk acc.reverse :: splitDotsAux rest []
    else splitDotsAux rest (c :: acc)

/-- JavaScript path.split with a dot separator (index.js line 176): splits
on every dot, the empty string splits to a single empty segment. -/
def splitDots (s : String) : List String :=
  splitDotsAux s.data []

/-- createEngine (index.js lines 171-204): validates the configured path and
builds the initial engine state, restoring a persisted numeric value via
getSelfPath. Returns none on a missing or malformed path. -/
def createEngine (getPath : String → Option JVal) (config : EngineConfig) :
    Option Engine :=
  match config.path with
  | none => none
  | some p =>
    if p = "" then none
    else if (splitDots p).length < 3 ∨ (splitDots p).getD 0 "" ≠ "propulsion" then
      none
    else
      some {
        path := p
        engineSource := config.engineSource
        signalkId := (splitDots p).getD 1 ""
        basePath := "propulsion." ++ (splitDots p).getD 1 ""
        lastValue := match getPath p with
          | some (JVal.num n) => some n
          | _ => none
        lastKnown := []
        timeout := none
        intervalNext := none
        isInjecting := false
        seenSources := [] }

/-- one discovery result (index.js lines 385-389). -/
structure Discovered where
  path : String
  unit : String
  source : String
  deriving Repr, DecidableEq

/-- the slice of the Signal K data tree the plugin reads: the propulsion
subtree as nested entry lists (none standing in for a missing or
non-object node), plus getSelfPath lookups for restored values and for
source metadata under a .meta suffix. -/
structure Tree where
  propulsion : Option (List (String × Option (List (String × JVal))))
  getPath : String → Option JVal
  metaSource : String → Option Source

/-- source label resolution inside discoverEngines (index.js lines 378-383):
meta && meta.source && meta.source.label, defaulting to unknown. -/
def discoveredSourceLabel (tree : Tree) (path : String) : String :=
  match tree.metaSource (path ++ ".meta") with
  | some s =>
    match s.label with
    | some l => if l = "" then "unknown" else l
    | none => "unknown"
  | none => "unknown"

/-- discoverEngines (index.js lines 361-397): walk the propulsion subtree
and collect every field whose lowercased name is runtime or runhours. -/
def discoverEngines (tree : Tree) : List Discovered :=
  match tree.propulsion with
  | none => []
  | some entries =>
    entries.flatMap fun kv =>
      match kv.2 with
      | none => []
      | some fields =>
        fields.filterMap fun fv =>
          let fl := fv.1.toLower
          if fl = "runtime" ∨ fl = "runhours" then
            let path := "propulsion." ++ kv.1 ++ "." ++ fv.1
            some { path := path
                   unit := if fl = "runtime" then "seconds" else "hours"
                   source := discoveredSourceLabel tree path }
          else none

/-- one line of the discovery-only status report (index.js lines 125-129);
a template interpolation of an absent path prints the text undefined. -/
def configLine (c : EngineConfig) : String :=
  " â€¢ " ++ jsStringOfOptStr c.path ++ " " ++
    (match c.engineSource with
     | some src => if src = "" then "" else "(Source required: " ++ src ++ ")"
     | none => "") ++ "\n"

/-- status message built in discovery-only mode (index.js lines 115-130). -/
def discoverOnlyStatus (configs : List EngineConfig) (isAuto : Bool) : String :=
  "Discovery Only Mode Active.\n" ++
    (if configs.length = 0 then
      "State: No engines configured and none found via discovery."
    else
      "Config Source: " ++
        (if isAuto then "AUTO (Discovered)" else "MANUAL (Settings)") ++ ".\n" ++
        "The following engines WOULD be monitored if this mode was off:\n" ++
        String.join (configs.map configLine))

/-- configuration list actually monitored (index.js lines 96-109): explicit
configuration when present, otherwise auto-configuration from discovery. -/
def mergedConfigs (o : Options) (tree : Tree) : List EngineConfig :=
  if o.engines.length = 0 then
    if (discoverEngines tree).length > 0 then
      (discoverEngines tree).map fun d =>
        { name := none, path := some d.path, engineSource := some "" }
    else o.engines
  else o.engines

/-- isAutoConfig flag of plugin.start (index.js lines 97-103). -/
def isAutoConfig (o : Options) (tree : Tree) : Bool :=
  decide (o.engines.length = 0) && decide ((discoverEngines tree).length > 0)

/-- observable outcome of plugin.start: the engine objects created, the
stream paths subscribed to, the deltas published during start, and the
plugin status string set last. -/
structure StartResult where
  engines : List Engine
  subscriptions : List String
  published : List Delta
  status : String

/-- plugin.start (index.js lines 79-158), run at creation instant t. The
start path itself publishes no delta and only reads the data tree. -/
def start (o : Options) (tree : Tree) (t : Nat) : StartResult :=
  let configsToMonitor := mergedConfigs o tree
  if o.discoverOnly then
    { engines := [], subscriptions := [], published := [],
      status := discoverOnlyStatus configsToMonitor (isAutoConfig o tree) }
  else if configsToMonitor.length = 0 then
    { engines := [], subscriptions := [], published := [],
      status := "Waiting: No engines configured and none discovered yet." }
  else
    let pairs := configsToMonitor.filterMap fun cfg =>
      (createEngine tree.getPath cfg).map (subscribe o t)
    { engines := pairs.map Prod.fst
      subscriptions := pairs.flatMap Prod.snd
      published := []
      status := "Running: Monitoring " ++ toString pairs.length ++ " engines." }

/-- Modelled from the spec (claim C10 wording): a configuration entry is
invalid when its path is missing, has fewer than three dot-separated
segments, or its first segment is not propulsion. Stated separately from
createEngine so the two can be compared. -/
def specInvalidEntry (config : EngineConfig) : Bool :=
  match config.path with
  | none => true
  | some p =>
    decide ((splitDots p).length < 3) ||
      decide ((splitDots p).getD 0 "" ≠ "propulsion")

/-- sample options used to evaluate the theorems on concrete inputs. -/
def oW : Options :=
  { startDelaySeconds := 2, transmitIntervalSeconds := 3 }

/-- sample engine state used to evaluate the theorems on concrete inputs. -/
def eW : Engine :=
  { path := "propulsion.port.runTime", engineSource := none,
    signalkId := "port", basePath := "propulsion.port",
    lastValue := some 5, lastKnown := [("temperature", JVal.num 300)],
    timeout := none, intervalNext := none, isInjecting := false,
    seenSources := [] }

/-- sample genuine upstream source. -/
def srcEcu : Source := { label := some "ecu.engine", src := some "1" }

/-- sample source carrying the plugin own label. -/
def srcSelf : Source := { label := some pluginId, src := none }

/-- sample engine with a configured source authority. -/
def eWAuth : Engine := { eW with engineSource := some "authorityA" }

/-- sample engine already in the injecting state with its ticker armed. -/
def eWInj : Engine :=
  { eW with isInjecting := true, intervalNext := some 9000 }

/-- sample engine with no value: nothing restored, nothing received. -/
def eWEmpty : Engine := { eW with lastValue := none, lastKnown := [] }

/-- sample data tree with two discoverable runtime leaves. -/
def treeW : Tree :=
  { propulsion := some
      [("port", some [("runTime", JVal.num 100)]),
       ("starboard", some [("runHours", JVal.num 7)])]
    getPath := fun p => if p = "propulsion.port.runTime" then some (JVal.num 100) else none
    metaSource := fun _ => none }

/-- sample options carrying one valid and two invalid engine entries. -/
def oWMixed : Options :=
  { startDelaySeconds := 2, transmitIntervalSeconds := 3,
    engines :=
      [{ path := some "propulsion.port.runTime" },
       { path := none },
       { path := some "navigation.speed.value" }] }

/-- sample options with the discovery-only flag set. -/
def oWDiscover : Options := { oW with discoverOnly := true }

/-- invariant of the claim about timer exclusivity: the injection ticker
exists exactly while the injection flag is set, and never together with a
pending silence timeout. -/
def TimerInv (e : Engine) : Prop :=
  (e.intervalNext.isSome = true ↔ e.isInjecting = true) ∧
  ¬(e.timeout.isSome = true ∧ e.intervalNext.isSome = true)

/-- invariant: an injecting channel has a value to inject. -/
def InjHasValue (e : Engine) : Prop :=
  e.isInjecting = true → e.lastValue.isSome = true

/-- state of a channel that never saw a value: nothing restored, nothing
received, not injecting, no ticker. -/
def NoValState (e : Engine) : Prop :=
  e.lastValue = none ∧ e.isInjecting = false ∧ e.intervalNext = none

/-- recordSource touches only the seenSources field. -/
theorem recordSource_eq (e : Engine) (s : Option Source) :
    ∃ ss, recordSource e s = { e with seenSources := ss } := by
  cases s with
  | none => exact ⟨e.seenSources, rfl⟩
  | some s =>
    by_cases h : (e.seenSources.any fun p => decide (p.1 = sourceKey s)) = true
    · exact ⟨e.seenSources, by simp [recordSource, h]⟩
    · exact ⟨e.seenSources ++ [(sourceKey s, s)], by simp [recordSource, h]⟩

/-- after recordSource on a present source, the key of that source occurs
among the recorded keys. -/
theorem sourceKey_mem_recordSource (e : Engine) (s : Source) :
    sourceKey s ∈ (recordSource e (some s)).seenSources.map Prod.fst := by
  by_cases h : (e.seenSources.any fun p => decide (p.1 = sourceKey s)) = true
  · have he : recordSource e (some s) = e := by simp [recordSource, h]
    rw [he]
    obtain ⟨p, hp, hpk⟩ := List.any_eq_true.mp h
    rw [decide_eq_true_eq] at hpk
    exact List.mem_map.2 ⟨p, hp, hpk⟩
  · have he : (recordSource e (some s)).seenSources
        = e.seenSources ++ [(sourceKey s, s)] := by
      simp [recordSource, h]
    rw [he]
    simp

/-- handleRuntime ignores a non-numeric value entirely. -/
theorem handleRuntime_nonNum (o : Options) (t : Nat) (e : Engine)
    (v : JVal) (s : Option Source) (hv : ∀ n, v ≠ JVal.num n) :
    handleRuntime o t e v s = e := by
  cases v with
  | num n => exact absurd rfl (hv n)
  | str _ => rfl
  | null => rfl

/-- handleRuntime on a self-labelled source stops after recordSource. -/
theorem handleRuntime_self (o : Options) (t : Nat) (e : Engine) (n : Int)
    (s : Source) (hs : s.label = some pluginId) :
    handleRuntime o t e (JVal.num n) (some s) = recordSource e (some s) := by
  unfold handleRuntime isSelfLabel
  simp [hs]

/-- handleRuntime on a source rejected by isRealEngineSource stops after
recordSource. -/
theorem handleRuntime_notReal (o : Options) (t : Nat) (e : Engine) (n : Int)
    (s : Option Source)
    (hreal : isRealEngineSource (recordSource e s) s = false) :
    handleRuntime o t e (JVal.num n) s = recordSource e s := by
  unfold handleRuntime
  by_cases hself : isSelfLabel s
  · simp [hself]
  · simp [hself, hreal]

/-- handleRuntime on an accepted genuine numeric update: stop injection when
injecting, store the value, rearm the silence timer. -/
theorem handleRuntime_genuine (o : Options) (t : Nat) (e : Engine) (n : Int)
    (s : Option Source) (hself : isSelfLabel s = false)
    (hreal : isRealEngineSource (recordSource e s) s = true) :
    handleRuntime o t e (JVal.num n) s =
      resetSilenceTimer o t
        (if (recordSource e s).isInjecting then
          stopInjection { recordSource e s with lastValue := some n }
        else { recordSource e s with lastValue := some n }) := by
  unfold handleRuntime
  simp [hself, hreal]

/-- observable fields of handleRuntime after an accepted genuine update. -/
theorem handleRuntime_genuine_state (o : Options) (t : Nat) (e : Engine)
    (n : Int) (s : Option Source) (hself : isSelfLabel s = false)
    (hreal : isRealEngineSource (recordSource e s) s = true) :
    (handleRuntime o t e (JVal.num n) s).lastValue = some n ∧
    (handleRuntime o t e (JVal.num n) s).timeout
      = some (t + o.startDelaySeconds * 1000) ∧
    (handleRuntime o t e (JVal.num n) s).isInjecting = false ∧
    (handleRuntime o t e (JVal.num n) s).path = e.path ∧
    (handleRuntime o t e (JVal.num n) s).basePath = e.basePath ∧
    (handleRuntime o t e (JVal.num n) s).lastKnown = e.lastKnown ∧
    (handleRuntime o t e (JVal.num n) s).engineSource = e.engineSource ∧
    (e.isInjecting = true →
      (handleRuntime o t e (JVal.num n) s).intervalNext = none) ∧
    (e.isInjecting = false →
      (handleRuntime o t e (JVal.num n) s).intervalNext = e.intervalNext) := by
  obtain ⟨ss, hss⟩ := recordSource_eq e s
  rw [handleRuntime_genuine o t e n s hself hreal, hss]
  by_cases hinj : e.isInjecting = true
  · simp [hinj, resetSilenceTimer, stopInjection]
  · simp [hinj, resetSilenceTimer]

/-- emitDelta only reads the path, lastValue, basePath and lastKnown fields. -/
theorem companionEntry_congr (e e' : Engine)
    (h3 : e.basePath = e'.basePath) (h4 : e.lastKnown = e'.lastKnown) :
    companionEntry e = companionEntry e' := by
  funext field
  unfold companionEntry companionRaw
  rw [h3, h4]

/-- emitDelta is unchanged by the timer and injection-flag fields. -/
theorem emitDelta_congr (fields : List String) (e e' : Engine)
    (h1 : e.path = e'.path) (h2 : e.lastValue = e'.lastValue)
    (h3 : e.basePath = e'.basePath) (h4 : e.lastKnown = e'.lastKnown) :
    emitDelta fields e = emitDelta fields e' := by
  unfold emitDelta
  rw [h1, h2, companionEntry_congr e e' h3 h4]

/-- one instant at which neither timer is due changes nothing. -/
theorem stepAt_waiting (o : Options) (t b : Nat) (e : Engine)
    (hT : e.timeout = some b) (hI : e.intervalNext = none) (hbt : b ≠ t) :
    stepAt o t e = (e, []) := by
  simp [stepAt, fireTimeoutAt, fireIntervalAt, hT, hI, hbt]

/-- the silence deadline fires: startInjection emits once and arms the
ticker one transmit interval later. -/
theorem stepAt_deadline (o : Options) (t : Nat) (e : Engine) (v : Int)
    (hT : e.timeout = some t) (hI : e.intervalNext = none)
    (hJ : e.isInjecting = false) (hV : e.lastValue = some v)
    (hpos : 1 ≤ o.transmitIntervalSeconds * 1000) :
    stepAt o t e = (injState e (t + o.transmitIntervalSeconds * 1000),
      [emitDelta (effectiveFields o) { e with timeout := none, isInjecting := true }]) := by
  have hne : t + o.transmitIntervalSeconds * 1000 ≠ t := by omega
  simp [stepAt, fireTimeoutAt, fireIntervalAt, startInjection, injState,
    hT, hI, hJ, hV, hne]

/-- the injection ticker fires: one delta and the ticker stays armed one
transmit interval later. -/
theorem stepAt_tick (o : Options) (t : Nat) (e0 : Engine) :
    stepAt o t (injState e0 t)
      = (injState e0 (t + o.transmitIntervalSeconds * 1000),
         [emitDelta (effectiveFields o) (injState e0 t)]) := by
  simp [stepAt, fireTimeoutAt, fireIntervalAt, injState]

/-- an instant between injection ticks changes nothing. -/
theorem stepAt_injIdle (o : Options) (t m : Nat) (e0 : Engine) (hm : m ≠ t) :
    stepAt o t (injState e0 m) = (injState e0 m, []) := by
  simp [stepAt, fireTimeoutAt, fireIntervalAt, injState, hm]

/-- while the silence timer is pending and no injection ticker exists, a
silent run leaves the engine untouched. -/
theorem runSilent_stay (o : Options) (e : Engine) (b : Nat)
    (hT : e.timeout = some b) (hI : e.intervalNext = none) :
    ∀ t, t ≤ b → runSilent o e t = e := by
  intro t
  induction t with
  | zero => intro _; rfl
  | succ t ih =>
    intro hle
    have hlt : t < b := hle
    rw [runSilent, ih (Nat.le_of_lt hlt), stepAt_waiting o t b e hT hI (by omega)]

/-- before the silence deadline, a silent run publishes nothing. -/
theorem emitsAt_quiet (o : Options) (e : Engine) (b : Nat)
    (hT : e.timeout = some b) (hI : e.intervalNext = none) :
    ∀ t, t < b → emitsAt o e t = [] := by
  intro t hlt
  rw [emitsAt, runSilent_stay o e b hT hI t (Nat.le_of_lt hlt),
    stepAt_waiting o t b e hT hI (by omega)]

/-- closed form of a silent run from a freshly armed state: the engine stays
put until the silence deadline b, then is injecting with its ticker due at
the next multiple of the transmit interval after b. -/
theorem runSilent_closedForm (o : Options) (e0 : Engine) (b : Nat) (v : Int)
    (hT : e0.timeout = some b) (hI : e0.intervalNext = none)
    (hJ : e0.isInjecting = false) (hV : e0.lastValue = some v)
    (hP : 1 ≤ o.transmitIntervalSeconds) :
    ∀ t, (t ≤ b ∧ runSilent o e0 t = e0) ∨
      (∃ k, b + k * (o.transmitIntervalSeconds * 1000) < t ∧
        t ≤ b + (k + 1) * (o.transmitIntervalSeconds * 1000) ∧
        runSilent o e0 t
          = injState e0 (b + (k + 1) * (o.transmitIntervalSeconds * 1000))) := by
  have hP1 : 1 ≤ o.transmitIntervalSeconds * 1000 := by omega
  intro t
  induction t with
  | zero => exact Or.inl ⟨Nat.zero_le _, rfl⟩
  | succ t ih =>
    rcases ih with ⟨hle, hst⟩ | ⟨k, hk1, hk2, hst⟩
    · rcases Nat.lt_or_ge t b with hlt | hge
      · exact Or.inl ⟨hlt, by
          rw [runSilent, hst, stepAt_waiting o t b e0 hT hI (by omega)]⟩
      · have htb : t = b := Nat.le_antisymm hle hge
        subst htb
        refine Or.inr ⟨0, by omega, by omega, ?_⟩
        rw [runSilent, hst, stepAt_deadline o t e0 v hT hI hJ hV hP1]
        simp
    · have em1 : (k + 1) * (o.transmitIntervalSeconds * 1000)
          = k * (o.transmitIntervalSeconds * 1000)
            + o.transmitIntervalSeconds * 1000 := Nat.succ_mul k _
      have em2 : (k + 1 + 1) * (o.transmitIntervalSeconds * 1000)
          = (k + 1) * (o.transmitIntervalSeconds * 1000)
            + o.transmitIntervalSeconds * 1000 := Nat.succ_mul (k + 1) _
      rcases Nat.lt_or_ge t (b + (k + 1) * (o.transmitIntervalSeconds * 1000))
        with hlt | hge
      · refine Or.inr ⟨k, ?_, ?_, ?_⟩
        · rw [em1] at hlt
          rw [em1] at hk2
          omega
        · rw [em1] at hlt ⊢
          omega
        · rw [runSilent, hst, stepAt_injIdle o t _ e0 (by omega)]
      · have htm : t = b + (k + 1) * (o.transmitIntervalSeconds * 1000) :=
          Nat.le_antisymm hk2 hge
        refine Or.inr ⟨k + 1, ?_, ?_, ?_⟩
        · omega
        · rw [em2]
          omega
        · rw [runSilent, hst, htm, stepAt_tick o _ e0, em2]
          rw [Nat.add_assoc]

/-- after the silence deadline of a silent run, the channel is injecting. -/
theorem runSilent_injecting_after (o : Options) (e0 : Engine) (b : Nat)
    (v : Int) (hT : e0.timeout = some b) (hI : e0.intervalNext = none)
    (hJ : e0.isInjecting = false) (hV : e0.lastValue = some v)
    (hP : 1 ≤ o.transmitIntervalSeconds) :
    ∀ t, b < t → (runSilent o e0 t).isInjecting = true := by
  intro t hbt
  rcases runSilent_closedForm o e0 b v hT hI hJ hV hP t with ⟨hle, _⟩ | ⟨k, _, _, hst⟩
  · omega
  · rw [hst]
    rfl

/-- during a silent run from a freshly armed state, one delta is published
at the silence deadline and at every transmit interval thereafter. -/
theorem emitsAt_fire (o : Options) (e0 : Engine) (b : Nat) (v : Int)
    (hT : e0.timeout = some b) (hI : e0.intervalNext = none)
    (hJ : e0.isInjecting = false) (hV : e0.lastValue = some v)
    (hP : 1 ≤ o.transmitIntervalSeconds) :
    ∀ k, emitsAt o e0 (b + k * (o.transmitIntervalSeconds * 1000))
      = [emitDelta (effectiveFields o) e0] := by
  have hP1 : 1 ≤ o.transmitIntervalSeconds * 1000 := by omega
  intro k
  cases k with
  | zero =>
    rw [Nat.zero_mul, Nat.add_zero, emitsAt,
      runSilent_stay o e0 b hT hI b Nat.le.refl,
      stepAt_deadline o b e0 v hT hI hJ hV hP1]
    have hcong : emitDelta (effectiveFields o)
        { e0 with timeout := none, isInjecting := true }
        = emitDelta (effectiveFields o) e0 :=
      emitDelta_congr _ _ _ rfl rfl rfl rfl
    rw [← hcong]
  | succ k =>
    rcases runSilent_closedForm o e0 b v hT hI hJ hV hP
        (b + (k + 1) * (o.transmitIntervalSeconds * 1000))
      with ⟨hle, _⟩ | ⟨k', h1, h2, hst⟩
    · exfalso
      have h01 : 1 ≤ (k + 1) * (o.transmitIntervalSeconds * 1000) :=
        Nat.mul_pos (by omega) (by omega)
      omega
    · have hc1 : k' * (o.transmitIntervalSeconds * 1000)
          < (k + 1) * (o.transmitIntervalSeconds * 1000) := by omega
      have hc2 : (k + 1) * (o.transmitIntervalSeconds * 1000)
          ≤ (k' + 1) * (o.transmitIntervalSeconds * 1000) := by omega
      have hlt : k' < k + 1 := lt_of_mul_lt_mul_right hc1 (Nat.zero_le _)
      have hge : k + 1 ≤ k' + 1 := le_of_mul_le_mul_right hc2 (by omega)
      have hkk : k' = k := by omega
      subst hkk
      rw [emitsAt, hst, stepAt_tick o _ e0]
      have hcong : emitDelta (effectiveFields o)
          (injState e0 (b + (k' + 1) * (o.transmitIntervalSeconds * 1000)))
          = emitDelta (effectiveFields o) e0 :=
        emitDelta_congr _ _ _ rfl rfl rfl rfl
      rw [← hcong]

/-- during a silent run from a freshly armed state, nothing is published at
any instant other than the deadline and the subsequent tick instants. -/
theorem emitsAt_silent_times (o : Options) (e0 : Engine) (b : Nat) (v : Int)
    (hT : e0.timeout = some b) (hI : e0.intervalNext = none)
    (hJ : e0.isInjecting = false) (hV : e0.lastValue = some v)
    (hP : 1 ≤ o.transmitIntervalSeconds) :
    ∀ t, emitsAt o e0 t ≠ []
      → ∃ k, t = b + k * (o.transmitIntervalSeconds * 1000) := by
  intro t hne
  rcases runSilent_closedForm o e0 b v hT hI hJ hV hP t
    with ⟨hle, hst⟩ | ⟨k, h1, h2, hst⟩
  · by_cases htb : t = b
    · exact ⟨0, by omega⟩
    · exact absurd (by
        rw [emitsAt, hst, stepAt_waiting o t b e0 hT hI (by omega)]) hne
  · by_cases htm : t = b + (k + 1) * (o.transmitIntervalSeconds * 1000)
    · exact ⟨k + 1, htm⟩
    · exact absurd (by
        rw [emitsAt, hst, stepAt_injIdle o t _ e0 (by omega)]) hne

/-- C1: for every monitored channel, if a genuine accepted update with
numeric value V arrives at instant T (milliseconds), the silence delay is
D seconds and no further genuine update arrives, then just after
T + D*1000 the channel is injecting, exactly one synthetic delta carrying
V on the primary path under the plugin source label is published at
T + D*1000 + k*(I*1000) for every k, and at no other instant. -/
theorem c1_silence_triggers_injection
    (o : Options) (e : Engine) (s : Option Source) (v : Int) (T : Nat)
    (hItv : 1 ≤ o.transmitIntervalSeconds)
    (hself : isSelfLabel s = false)
    (hreal : isRealEngineSource (recordSource e s) s = true)
    (hnoi : e.intervalNext.isSome = true → e.isInjecting = true) :
    (runSilent o (handleRuntime o T e (JVal.num v) s)
        (T + o.startDelaySeconds * 1000 + 1)).isInjecting = true ∧
    (∀ k, ∃ d, emitsAt o (handleRuntime o T e (JVal.num v) s)
        (T + o.startDelaySeconds * 1000
          + k * (o.transmitIntervalSeconds * 1000)) = [d] ∧
      d.sourceLabel = pluginId ∧
      d.values.head? = some ⟨e.path, JVal.num v⟩) ∧
    (∀ t, emitsAt o (handleRuntime o T e (JVal.num v) s) t ≠ []
      → ∃ k, t = T + o.startDelaySeconds * 1000
          + k * (o.transmitIntervalSeconds * 1000)) := by
  obtain ⟨hLV, hTO, hJ, hpath, hbase, hlk, hes, hint1, hint0⟩ :=
    handleRuntime_genuine_state o T e v s hself hreal
  set e0 := handleRuntime o T e (JVal.num v) s with he0
  have hI : e0.intervalNext = none := by
    by_cases hinj : e.isInjecting = true
    · exact hint1 hinj
    · have hf : e.isInjecting = false := by
        revert hinj
        cases e.isInjecting <;> simp
      rw [hint0 hf]
      cases hni : e.intervalNext with
      | none => rfl
      | some m =>
        have hit : e.isInjecting = true := hnoi (by rw [hni]; rfl)
        rw [hit] at hf
        exact absurd hf (by simp)
  refine ⟨runSilent_injecting_after o e0 _ v hTO hI hJ hLV hItv _ (by omega),
    fun k => ⟨emitDelta (effectiveFields o) e0,
      emitsAt_fire o e0 _ v hTO hI hJ hLV hItv k, rfl, ?_⟩,
    emitsAt_silent_times o e0 _ v hTO hI hJ hLV hItv⟩
  simp [emitDelta, hpath, hLV, jvalOfLastValue]

/-- witness for C1 at concrete inputs: silence delay 2s, transmit interval
3s, genuine update of value 42 from an upstream ECU at instant 0. -/
theorem c1_witness :
    (1 ≤ oW.transmitIntervalSeconds) ∧
    (isSelfLabel (some srcEcu) = false) ∧
    (isRealEngineSource (recordSource eW (some srcEcu)) (some srcEcu) = true) ∧
    (eW.intervalNext.isSome = true → eW.isInjecting = true) ∧
    ((runSilent oW (handleRuntime oW 0 eW (JVal.num 42) (some srcEcu))
        (0 + oW.startDelaySeconds * 1000 + 1)).isInjecting = true ∧
    (∀ k, ∃ d, emitsAt oW (handleRuntime oW 0 eW (JVal.num 42) (some srcEcu))
        (0 + oW.startDelaySeconds * 1000
          + k * (oW.transmitIntervalSeconds * 1000)) = [d] ∧
      d.sourceLabel = pluginId ∧
      d.values.head? = some ⟨eW.path, JVal.num 42⟩) ∧
    (∀ t, emitsAt oW (handleRuntime oW 0 eW (JVal.num 42) (some srcEcu)) t ≠ []
      → ∃ k, t = 0 + oW.startDelaySeconds * 1000
          + k * (oW.transmitIntervalSeconds * 1000))) :=
  ⟨by decide, by decide, by decide, by decide,
    c1_silence_triggers_injection oW eW (some srcEcu) 42 0
      (by decide) (by decide) (by decide) (by decide)⟩

/-- C2: an inbound event whose source label is the plugin id is never
classified as genuine: lastValue, the silence timer, the ticker and the
injection flag are untouched (whatever the value, including one equal to
lastValue), and every delta emitDelta builds declares that same label. -/
theorem c2_no_feedback_loop (o : Options) (t : Nat) (e : Engine) (v : JVal)
    (s : Source) (hs : s.label = some pluginId) :
    isRealEngineSource e (some s) = false ∧
    (handleRuntime o t e v (some s)).lastValue = e.lastValue ∧
    (handleRuntime o t e v (some s)).timeout = e.timeout ∧
    (handleRuntime o t e v (some s)).intervalNext = e.intervalNext ∧
    (handleRuntime o t e v (some s)).isInjecting = e.isInjecting ∧
    (∀ fields e2, (emitDelta fields e2).sourceLabel = pluginId) := by
  have hreal : isRealEngineSource e (some s) = false := by
    simp [isRealEngineSource, hs]
  obtain ⟨ss, hss⟩ := recordSource_eq e (some s)
  refine ⟨hreal, ?_, ?_, ?_, ?_, fun _ _ => rfl⟩ <;>
    cases v with
    | num n => rw [handleRuntime_self o t e n s hs, hss]
    | str a => rfl
    | null => rfl

/-- witness for C2 at concrete inputs: a self-labelled event carrying the
very number stored in lastValue. -/
theorem c2_witness :
    (srcSelf.label = some pluginId) ∧
    (isRealEngineSource eW (some srcSelf) = false ∧
    (handleRuntime oW 0 eW (JVal.num 5) (some srcSelf)).lastValue = eW.lastValue ∧
    (handleRuntime oW 0 eW (JVal.num 5) (some srcSelf)).timeout = eW.timeout ∧
    (handleRuntime oW 0 eW (JVal.num 5) (some srcSelf)).intervalNext
      = eW.intervalNext ∧
    (handleRuntime oW 0 eW (JVal.num 5) (some srcSelf)).isInjecting
      = eW.isInjecting ∧
    (∀ fields e2, (emitDelta fields e2).sourceLabel = pluginId)) :=
  ⟨by decide, c2_no_feedback_loop oW 0 eW (JVal.num 5) srcSelf (by decide)⟩

/-- C7 counterexample: a numeric event under the plugin's own source label
is not ignored entirely — recordSource runs before the self test
(index.js lines 262-265), so the seen-sources record changes. -/
theorem c7_counterexample :
    handleRuntime oW 0 eW (JVal.num 5) (some srcSelf) ≠ eW := by decide

/-- C7 as amended: a numeric self-labelled event leaves lastValue, both
timers, the injection flag and lastKnown unchanged, but its source is
recorded in the seen-sources collection. -/
theorem c7_self_event_recorded (o : Options) (t : Nat) (e : Engine) (n : Int)
    (s : Source) (hs : s.label = some pluginId) :
    handleRuntime o t e (JVal.num n) (some s) = recordSource e (some s) ∧
    (handleRuntime o t e (JVal.num n) (some s)).lastValue = e.lastValue ∧
    (handleRuntime o t e (JVal.num n) (some s)).timeout = e.timeout ∧
    (handleRuntime o t e (JVal.num n) (some s)).intervalNext = e.intervalNext ∧
    (handleRuntime o t e (JVal.num n) (some s)).isInjecting = e.isInjecting ∧
    (handleRuntime o t e (JVal.num n) (some s)).lastKnown = e.lastKnown ∧
    sourceKey s
      ∈ (handleRuntime o t e (JVal.num n) (some s)).seenSources.map Prod.fst := by
  have h := handleRuntime_self o t e n s hs
  obtain ⟨ss, hss⟩ := recordSource_eq e (some s)
  refine ⟨h, ?_, ?_, ?_, ?_, ?_, ?_⟩
  · rw [h, hss]
  · rw [h, hss]
  · rw [h, hss]
  · rw [h, hss]
  · rw [h, hss]
  · rw [h]
    exact sourceKey_mem_recordSource e s

/-- witness for C7 as amended, at concrete inputs. -/
theorem c7_witness :
    (srcSelf.label = some pluginId) ∧
    (handleRuntime oW 0 eW (JVal.num 5) (some srcSelf)
        = recordSource eW (some srcSelf) ∧
    (handleRuntime oW 0 eW (JVal.num 5) (some srcSelf)).lastValue
        = eW.lastValue ∧
    (handleRuntime oW 0 eW (JVal.num 5) (some srcSelf)).timeout = eW.timeout ∧
    (handleRuntime oW 0 eW (JVal.num 5) (some srcSelf)).intervalNext
        = eW.intervalNext ∧
    (handleRuntime oW 0 eW (JVal.num 5) (some srcSelf)).isInjecting
        = eW.isInjecting ∧
    (handleRuntime oW 0 eW (JVal.num 5) (some srcSelf)).lastKnown
        = eW.lastKnown ∧
    sourceKey srcSelf
      ∈ (handleRuntime oW 0 eW (JVal.num 5) (some srcSelf)).seenSources.map
          Prod.fst) :=
  ⟨by decide, c7_self_event_recorded oW 0 eW 5 srcSelf (by decide)⟩

/-- C6: with a configured source authority, an inbound numeric update whose
source matches neither the label nor the stringified src of that authority
only records the source for diagnostics: lastValue, both timers and the
injection flag are untouched. -/
theorem c6_unauthorized_source (o : Options) (t : Nat) (e : Engine) (n : Int)
    (s : Source) (a : String) (hcfg : e.engineSource = some a) (ha : a ≠ "")
    (hlabel : s.label ≠ some a) (hsrc : jsStringOfOptStr s.src ≠ a) :
    handleRuntime o t e (JVal.num n) (some s) = recordSource e (some s) ∧
    (handleRuntime o t e (JVal.num n) (some s)).lastValue = e.lastValue ∧
    (handleRuntime o t e (JVal.num n) (some s)).timeout = e.timeout ∧
    (handleRuntime o t e (JVal.num n) (some s)).intervalNext = e.intervalNext ∧
    (handleRuntime o t e (JVal.num n) (some s)).isInjecting = e.isInjecting ∧
    sourceKey s
      ∈ (handleRuntime o t e (JVal.num n) (some s)).seenSources.map Prod.fst := by
  obtain ⟨ss, hss⟩ := recordSource_eq e (some s)
  have h : handleRuntime o t e (JVal.num n) (some s) = recordSource e (some s) := by
    by_cases hself : s.label = some pluginId
    · exact handleRuntime_self o t e n s hself
    · refine handleRuntime_notReal o t e n (some s) ?_
      have hes : (recordSource e (some s)).engineSource = some a := by
        rw [hss]
        exact hcfg
      simp [isRealEngineSource, hself, hes, ha, hlabel, hsrc]
  refine ⟨h, ?_, ?_, ?_, ?_, ?_⟩
  · rw [h, hss]
  · rw [h, hss]
  · rw [h, hss]
  · rw [h, hss]
  · rw [h]
    exact sourceKey_mem_recordSource e s

/-- witness for C6 at concrete inputs: authority authorityA configured, an
update of value 42 arrives from an unrelated ECU source. -/
theorem c6_witness :
    (eWAuth.engineSource = some "authorityA") ∧
    ("authorityA" ≠ "") ∧
    (srcEcu.label ≠ some "authorityA") ∧
    (jsStringOfOptStr srcEcu.src ≠ "authorityA") ∧
    (handleRuntime oW 0 eWAuth (JVal.num 42) (some srcEcu)
        = recordSource eWAuth (some srcEcu) ∧
    (handleRuntime oW 0 eWAuth (JVal.num 42) (some srcEcu)).lastValue
        = eWAuth.lastValue ∧
    (handleRuntime oW 0 eWAuth (JVal.num 42) (some srcEcu)).timeout
        = eWAuth.timeout ∧
    (handleRuntime oW 0 eWAuth (JVal.num 42) (some srcEcu)).intervalNext
        = eWAuth.intervalNext ∧
    (handleRuntime oW 0 eWAuth (JVal.num 42) (some srcEcu)).isInjecting
        = eWAuth.isInjecting ∧
    sourceKey srcEcu
      ∈ (handleRuntime oW 0 eWAuth (JVal.num 42) (some srcEcu)).seenSources.map
          Prod.fst) :=
  ⟨by decide, by decide, by decide, by decide,
    c6_unauthorized_source oW 0 eWAuth 42 srcEcu "authorityA"
      (by decide) (by decide) (by decide) (by decide)⟩

/-- companionEntry never produces an entry whose value is the JS null. -/
theorem companionEntry_value_ne_null (e : Engine) (f : String) (pv : PathValue)
    (h : companionEntry e f = some pv) : pv.value ≠ JVal.null := by
  unfold companionEntry at h
  split at h
  · next hc =>
    cases h
    exact hc.1
  · cases h

/-- C5: emitDelta publishes one delta: the primary path first with lastValue
unchanged, active companion fields forced to 0, passive companion fields
replaying the last known observation when one is available and omitted
otherwise, no companion entry ever carrying null, all under the plugin's
own source label. -/
theorem c5_emit_delta_contract (fields : List String) (e : Engine) :
    (emitDelta fields e).sourceLabel = pluginId ∧
    (emitDelta fields e).context = "vessels.self" ∧
    (emitDelta fields e).values
      = ⟨e.path, jvalOfLastValue e.lastValue⟩
          :: fields.filterMap (companionEntry e) ∧
    companionEntry e "revolutions"
      = some ⟨e.basePath ++ "." ++ "revolutions", JVal.num 0⟩ ∧
    companionEntry e "oilPressure"
      = some ⟨e.basePath ++ "." ++ "oilPressure", JVal.num 0⟩ ∧
    companionEntry e "fuelRate"
      = some ⟨e.basePath ++ "." ++ "fuel.rate", JVal.num 0⟩ ∧
    (∀ f, (f = "oilTemperature" ∨ f = "temperature") →
      (∀ w, lookupKnown e.lastKnown f = some w → w ≠ JVal.null →
        companionEntry e f = some ⟨e.basePath ++ "." ++ f, w⟩) ∧
      (lookupKnown e.lastKnown f = none → companionEntry e f = none) ∧
      (lookupKnown e.lastKnown f = some JVal.null → companionEntry e f = none)) ∧
    (∀ pv, pv ∈ fields.filterMap (companionEntry e) → pv.value ≠ JVal.null) := by
  refine ⟨rfl, rfl, rfl, by simp [companionEntry, companionRaw],
    by simp [companionEntry, companionRaw],
    by simp [companionEntry, companionRaw], ?_, ?_⟩
  · intro f hf
    rcases hf with hf | hf <;> subst hf <;>
      exact ⟨fun w hw hnn => by simp [companionEntry, companionRaw, hw, hnn],
        fun hw => by simp [companionEntry, companionRaw, hw],
        fun hw => by simp [companionEntry, companionRaw, hw]⟩
  · intro pv hm
    obtain ⟨f, _, hef⟩ := List.mem_filterMap.mp hm
    exact companionEntry_value_ne_null e f pv hef

/-- witness for C5 at concrete inputs: a stored temperature observation of
300 is replayed, and the delta carries the plugin source label. -/
theorem c5_witness :
    (lookupKnown eW.lastKnown "temperature" = some (JVal.num 300)) ∧
    (JVal.num 300 ≠ JVal.null) ∧
    companionEntry eW "temperature"
      = some ⟨eW.basePath ++ "." ++ "temperature", JVal.num 300⟩ ∧
    (emitDelta (effectiveFields oW) eW).sourceLabel = pluginId :=
  ⟨by decide, by decide,
    ((c5_emit_delta_contract (effectiveFields oW) eW).2.2.2.2.2.2.1
      "temperature" (Or.inr rfl)).1 (JVal.num 300) (by decide) (by decide),
    (c5_emit_delta_contract (effectiveFields oW) eW).1⟩

/-- firing the silence timeout preserves timer exclusivity. -/
theorem timerInv_fireTimeoutAt (o : Options) (t : Nat) (e : Engine)
    (h : TimerInv e) : TimerInv (fireTimeoutAt o t e).1 := by
  unfold fireTimeoutAt
  by_cases hT : e.timeout = some t
  · rw [if_pos hT]
    have hIn : e.intervalNext = none := by
      cases hi : e.intervalNext with
      | none => rfl
      | some m => exact absurd ⟨by rw [hT]; rfl, by rw [hi]; rfl⟩ h.2
    have hJ : e.isInjecting = false := by
      cases hj : e.isInjecting
      · rfl
      · have := h.1.mpr hj
        rw [hIn] at this
        cases this
    unfold startInjection
    by_cases hg : ({ e with timeout := none } : Engine).isInjecting = true
        ∨ ({ e with timeout := none } : Engine).lastValue = none
    · rw [if_pos hg]
      exact ⟨by simp [hIn, hJ], by simp [hIn]⟩
    · rw [if_neg hg]
      exact ⟨by simp, by simp⟩
  · rw [if_neg hT]
    exact h

/-- firing the injection ticker preserves timer exclusivity. -/
theorem timerInv_fireIntervalAt (o : Options) (t : Nat) (e : Engine)
    (h : TimerInv e) : TimerInv (fireIntervalAt o t e).1 := by
  unfold fireIntervalAt
  by_cases hI : e.intervalNext = some t
  · rw [if_pos hI]
    have hJ : e.isInjecting = true := h.1.mp (by rw [hI]; rfl)
    have hTo : e.timeout.isSome = false := by
      cases ht : e.timeout with
      | none => rfl
      | some m => exact absurd ⟨by rw [ht]; rfl, by rw [hI]; rfl⟩ h.2
    exact ⟨by simp [hJ], by simp [hTo]⟩
  · rw [if_neg hI]
    exact h

/-- one silent evaluation instant preserves timer exclusivity. -/
theorem timerInv_stepAt (o : Options) (t : Nat) (e : Engine)
    (h : TimerInv e) : TimerInv (stepAt o t e).1 :=
  timerInv_fireIntervalAt o t _ (timerInv_fireTimeoutAt o t e h)

/-- processing one inbound event preserves timer exclusivity. -/
theorem timerInv_handleRuntime (o : Options) (t : Nat) (e : Engine)
    (v : JVal) (s : Option Source) (h : TimerInv e) :
    TimerInv (handleRuntime o t e v s) := by
  obtain ⟨ss, hss⟩ := recordSource_eq e s
  cases v with
  | str a => exact h
  | null => exact h
  | num n =>
    by_cases hself : isSelfLabel s = true
    · have heq : handleRuntime o t e (JVal.num n) s = recordSource e s := by
        unfold handleRuntime
        simp [hself]
      rw [heq, hss]
      exact h
    · have hselff : isSelfLabel s = false := by
        revert hself
        cases isSelfLabel s <;> simp
      by_cases hreal : isRealEngineSource (recordSource e s) s = true
      · obtain ⟨_, hTO, hJ, _, _, _, _, hint1, hint0⟩ :=
          handleRuntime_genuine_state o t e n s hselff hreal
        have hIres : (handleRuntime o t e (JVal.num n) s).intervalNext = none := by
          cases hj : e.isInjecting
          · rw [hint0 hj]
            cases hi : e.intervalNext with
            | none => rfl
            | some m =>
              have := h.1.mp (by rw [hi]; rfl)
              rw [this] at hj
              cases hj
          · exact hint1 hj
        exact ⟨by rw [hIres, hJ]; simp, by rw [hIres]; simp⟩
      · have hrealf : isRealEngineSource (recordSource e s) s = false := by
          revert hreal
          cases isRealEngineSource (recordSource e s) s <;> simp
        rw [handleRuntime_notReal o t e n s hrealf, hss]
        exact h

/-- C3: a genuine accepted update arriving while injecting clears the
ticker, drops the injection flag and arms a fresh silence timer; timer
exclusivity is an invariant of both event processing and silent instants;
and no synthetic delta is published before the fresh silence window
expires. -/
theorem c3_resumption_cancels_injection (o : Options) (tu : Nat) (e : Engine)
    (n : Int) (s : Option Source) (hself : isSelfLabel s = false)
    (hreal : isRealEngineSource (recordSource e s) s = true)
    (hinj : e.isInjecting = true) :
    (handleRuntime o tu e (JVal.num n) s).intervalNext = none ∧
    (handleRuntime o tu e (JVal.num n) s).isInjecting = false ∧
    (handleRuntime o tu e (JVal.num n) s).timeout
      = some (tu + o.startDelaySeconds * 1000) ∧
    (∀ u, u < tu + o.startDelaySeconds * 1000 →
      emitsAt o (handleRuntime o tu e (JVal.num n) s) u = []) ∧
    (∀ e2 v2 s2 t2, TimerInv e2 → TimerInv (handleRuntime o t2 e2 v2 s2)) ∧
    (∀ e2 t2, TimerInv e2 → TimerInv (stepAt o t2 e2).1) := by
  obtain ⟨hLV, hTO, hJ, _, _, _, _, hint1, _⟩ :=
    handleRuntime_genuine_state o tu e n s hself hreal
  refine ⟨hint1 hinj, hJ, hTO, ?_, ?_, ?_⟩
  · intro u hu
    exact emitsAt_quiet o _ _ hTO (hint1 hinj) u hu
  · intro e2 v2 s2 t2 h2
    exact timerInv_handleRuntime o t2 e2 v2 s2 h2
  · intro e2 t2 h2
    exact timerInv_stepAt o t2 e2 h2

/-- witness for C3 at concrete inputs: an injecting channel with its ticker
armed receives a genuine update of value 50 at instant 9000. -/
theorem c3_witness :
    (isSelfLabel (some srcEcu) = false) ∧
    (isRealEngineSource (recordSource eWInj (some srcEcu)) (some srcEcu)
      = true) ∧
    (eWInj.isInjecting = true) ∧
    ((handleRuntime oW 9000 eWInj (JVal.num 50) (some srcEcu)).intervalNext
        = none ∧
    (handleRuntime oW 9000 eWInj (JVal.num 50) (some srcEcu)).isInjecting
        = false ∧
    (handleRuntime oW 9000 eWInj (JVal.num 50) (some srcEcu)).timeout
        = some (9000 + oW.startDelaySeconds * 1000) ∧
    (∀ u, u < 9000 + oW.startDelaySeconds * 1000 →
      emitsAt oW (handleRuntime oW 9000 eWInj (JVal.num 50) (some srcEcu)) u
        = []) ∧
    (∀ e2 v2 s2 t2, TimerInv e2 → TimerInv (handleRuntime oW t2 e2 v2 s2)) ∧
    (∀ e2 t2, TimerInv e2 → TimerInv (stepAt oW t2 e2).1)) :=
  ⟨by decide, by decide, by decide,
    c3_resumption_cancels_injection oW 9000 eWInj 50 (some srcEcu)
      (by decide) (by decide) (by decide)⟩

/-- a channel without a value stays without a value, does not start
injecting and emits nothing when its silence timeout fires. -/
theorem noVal_fireTimeoutAt (o : Options) (t : Nat) (e : Engine)
    (h : NoValState e) :
    NoValState (fireTimeoutAt o t e).1 ∧ (fireTimeoutAt o t e).2 = [] := by
  obtain ⟨hv, hj, hi⟩ := h
  unfold fireTimeoutAt
  by_cases hT : e.timeout = some t
  · rw [if_pos hT]
    unfold startInjection
    rw [if_pos (Or.inr (by simp [hv]))]
    exact ⟨⟨by simp [hv], by simp [hj], by simp [hi]⟩, rfl⟩
  · rw [if_neg hT]
    exact ⟨⟨hv, hj, hi⟩, rfl⟩

/-- a channel without a value has no ticker, so a ticker instant is inert. -/
theorem noVal_fireIntervalAt (o : Options) (t : Nat) (e : Engine)
    (h : NoValState e) :
    NoValState (fireIntervalAt o t e).1 ∧ (fireIntervalAt o t e).2 = [] := by
  obtain ⟨hv, hj, hi⟩ := h
  unfold fireIntervalAt
  rw [if_neg (by rw [hi]; simp)]
  exact ⟨⟨hv, hj, hi⟩, rfl⟩

/-- one silent instant on a channel without a value: state class preserved,
nothing emitted. -/
theorem noVal_stepAt (o : Options) (t : Nat) (e : Engine) (h : NoValState e) :
    NoValState (stepAt o t e).1 ∧ (stepAt o t e).2 = [] := by
  obtain ⟨h1, h2⟩ := noVal_fireTimeoutAt o t e h
  obtain ⟨h3, h4⟩ := noVal_fireIntervalAt o t _ h1
  refine ⟨h3, ?_⟩
  show (fireTimeoutAt o t e).2
      ++ (fireIntervalAt o t (fireTimeoutAt o t e).1).2 = []
  rw [h2, h4]
  rfl

/-- a silent run from a channel without a value never emits and never
leaves the no-value state. -/
theorem noVal_runSilent (o : Options) (e : Engine) (h : NoValState e) :
    ∀ t, NoValState (runSilent o e t) ∧ emitsAt o e t = [] := by
  have hs : ∀ t, NoValState (runSilent o e t) := by
    intro t
    induction t with
    | zero => exact h
    | succ t ih => exact (noVal_stepAt o t _ ih).1
  intro t
  exact ⟨hs t, (noVal_stepAt o t _ (hs t)).2⟩

/-- firing the silence timeout preserves the injecting-implies-value
invariant. -/
theorem injHasValue_fireTimeoutAt (o : Options) (t : Nat) (e : Engine)
    (h : InjHasValue e) : InjHasValue (fireTimeoutAt o t e).1 := by
  unfold fireTimeoutAt
  by_cases hT : e.timeout = some t
  · rw [if_pos hT]
    unfold startInjection
    by_cases hg : ({ e with timeout := none } : Engine).isInjecting = true
        ∨ ({ e with timeout := none } : Engine).lastValue = none
    · rw [if_pos hg]
      intro hj
      exact h hj
    · rw [if_neg hg]
      intro _
      have hnn : ¬ ({ e with timeout := none } : Engine).lastValue = none :=
        fun hnone => hg (Or.inr hnone)
      cases hl : e.lastValue with
      | none => exact absurd (by simp [hl]) hnn
      | some m => simp [hl]
  · rw [if_neg hT]
    exact h

/-- firing the injection ticker preserves the injecting-implies-value
invariant. -/
theorem injHasValue_fireIntervalAt (o : Options) (t : Nat) (e : Engine)
    (h : InjHasValue e) : InjHasValue (fireIntervalAt o t e).1 := by
  unfold fireIntervalAt
  by_cases hI : e.intervalNext = some t
  · rw [if_pos hI]
    intro hj
    exact h hj
  · rw [if_neg hI]
    exact h

/-- one silent instant preserves the injecting-implies-value invariant. -/
theorem injHasValue_stepAt (o : Options) (t : Nat) (e : Engine)
    (h : InjHasValue e) : InjHasValue (stepAt o t e).1 :=
  injHasValue_fireIntervalAt o t _ (injHasValue_fireTimeoutAt o t e h)

/-- processing one inbound event preserves the injecting-implies-value
invariant. -/
theorem injHasValue_handleRuntime (o : Options) (t : Nat) (e : Engine)
    (v : JVal) (s : Option Source) (h : InjHasValue e) :
    InjHasValue (handleRuntime o t e v s) := by
  obtain ⟨ss, hss⟩ := recordSource_eq e s
  cases v with
  | str a => exact h
  | null => exact h
  | num n =>
    by_cases hself : isSelfLabel s = true
    · have heq : handleRuntime o t e (JVal.num n) s = recordSource e s := by
        unfold handleRuntime
        simp [hself]
      rw [heq, hss]
      intro hj
      exact h hj
    · have hselff : isSelfLabel s = false := by
        revert hself
        cases isSelfLabel s <;> simp
      by_cases hreal : isRealEngineSource (recordSource e s) s = true
      · obtain ⟨_, _, hJ, _⟩ :=
          handleRuntime_genuine_state o t e n s hselff hreal
        intro hj
        rw [hJ] at hj
        cases hj
      · have hrealf : isRealEngineSource (recordSource e s) s = false := by
          revert hreal
          cases isRealEngineSource (recordSource e s) s <;> simp
        rw [handleRuntime_notReal o t e n s hrealf, hss]
        intro hj
        exact h hj

/-- C4: a channel whose lastValue is absent never starts injecting and
never emits a synthetic delta, however long the silence lasts; and the
injecting state implies a present lastValue, for silent instants and for
event processing alike. -/
theorem c4_no_value_invention (o : Options) (e : Engine) (h : NoValState e) :
    (∀ t, (runSilent o e t).isInjecting = false ∧ emitsAt o e t = []) ∧
    (∀ e2 t2, InjHasValue e2 → InjHasValue (stepAt o t2 e2).1) ∧
    (∀ e2 t2 v2 s2, InjHasValue e2 → InjHasValue (handleRuntime o t2 e2 v2 s2)) := by
  refine ⟨?_, ?_, ?_⟩
  · intro t
    obtain ⟨⟨_, hj, _⟩, hem⟩ := noVal_runSilent o e h t
    exact ⟨hj, hem⟩
  · intro e2 t2 h2
    exact injHasValue_stepAt o t2 e2 h2
  · intro e2 t2 v2 s2 h2
    exact injHasValue_handleRuntime o t2 e2 v2 s2 h2

/-- witness for C4 at concrete inputs: a channel created with no restored
value that never received an update. -/
theorem c4_witness :
    NoValState eWEmpty ∧
    ((∀ t, (runSilent oW eWEmpty t).isInjecting = false
        ∧ emitsAt oW eWEmpty t = []) ∧
    (∀ e2 t2, InjHasValue e2 → InjHasValue (stepAt oW t2 e2).1) ∧
    (∀ e2 t2 v2 s2, InjHasValue e2
        → InjHasValue (handleRuntime oW t2 e2 v2 s2))) :=
  ⟨⟨rfl, rfl, rfl⟩, c4_no_value_invention oW eWEmpty ⟨rfl, rfl, rfl⟩⟩

/-- setKnown stores the delivered value under the given field. -/
theorem lookupKnown_setKnown_self (l : List (String × JVal)) (f : String)
    (v : JVal) : lookupKnown (setKnown l f v) f = some v := by
  induction l with
  | nil => simp [setKnown, lookupKnown]
  | cons p rest ih =>
    obtain ⟨g, w⟩ := p
    by_cases h : g = f
    · simp [setKnown, lookupKnown, h]
    · simp [setKnown, lookupKnown, h, ih]

/-- C8 counterexample: the companion-field stream handler (index.js lines
238-240) receives only the value, never the source metadata, so an event
authored under the plugin's own label — or by a source the primary-path
arbiter rejects — still overwrites the stored last-known observation:
here a temperature event of value 99 from such a source replaces the
stored genuine observation 300. -/
theorem c8_counterexample :
    lookupKnown (companionOnValue eW "temperature" (JVal.num 99)).lastKnown
        "temperature" = some (JVal.num 99) ∧
    lookupKnown eW.lastKnown "temperature" = some (JVal.num 300) := by
  decide

/-- C8 as amended: lastKnown-updating subscriptions exist only for the
passive fields oilTemperature and temperature — active fields are never
stored at all — and every value delivered on a subscribed companion path
is stored, with no source gating of any kind. -/
theorem c8_companion_storage (o : Options) (e : Engine) (field : String)
    (val : JVal) :
    (∀ f, f ∈ lastKnownSubscribedFields o
      → f = "oilTemperature" ∨ f = "temperature") ∧
    (∀ f, activeField f = true → f ∉ lastKnownSubscribedFields o) ∧
    lookupKnown (companionOnValue e field val).lastKnown field = some val := by
  have hpass : ∀ f, f ∈ lastKnownSubscribedFields o
      → f = "oilTemperature" ∨ f = "temperature" := by
    intro f hf
    obtain ⟨_, hp⟩ := List.mem_filter.mp hf
    rw [Bool.and_eq_true] at hp
    obtain ⟨hsome, hact⟩ := hp
    unfold subscribeSuffix at hsome
    split_ifs at hsome with h1 h2 h3 h4 h5
    · subst h1
      simp [activeField] at hact
    · subst h2
      simp [activeField] at hact
    · exact Or.inl h3
    · exact Or.inr h4
    · subst h5
      simp [activeField] at hact
    · simp at hsome
  refine ⟨hpass, ?_, lookupKnown_setKnown_self e.lastKnown field val⟩
  intro f ha hf
  rcases hpass f hf with h | h <;> subst h <;> simp [activeField] at ha

/-- witness for C8 as amended, at concrete inputs. -/
theorem c8_witness :
    (∀ f, f ∈ lastKnownSubscribedFields oW
      → f = "oilTemperature" ∨ f = "temperature") ∧
    (∀ f, activeField f = true → f ∉ lastKnownSubscribedFields oW) ∧
    lookupKnown (companionOnValue eW "temperature" (JVal.num 99)).lastKnown
        "temperature" = some (JVal.num 99) :=
  c8_companion_storage oW eW "temperature" (JVal.num 99)

/-- createEngine rejects a configuration entry exactly when the entry is
invalid in the sense of the spec wording. -/
theorem createEngine_none_iff (gp : String → Option JVal) (cfg : EngineConfig) :
    createEngine gp cfg = none ↔ specInvalidEntry cfg = true := by
  obtain ⟨nm, pth, es⟩ := cfg
  cases pth with
  | none => exact iff_of_true rfl rfl
  | some p =>
    simp only [createEngine, specInvalidEntry]
    by_cases hpe : p = ""
    · subst hpe
      rw [if_pos rfl]
      exact iff_of_true rfl (by decide)
    · rw [if_neg hpe]
      by_cases hC : (splitDots p).length < 3
          ∨ (splitDots p).getD 0 "" ≠ "propulsion"
      · rw [if_pos hC]
        refine iff_of_true rfl ?_
        rw [Bool.or_eq_true]
        rcases hC with h | h
        · exact Or.inl (decide_eq_true h)
        · exact Or.inr (decide_eq_true h)
      · rw [if_neg hC]
        refine iff_of_false (by simp) ?_
        intro hb
        rw [Bool.or_eq_true] at hb
        rcases hb with h | h
        · exact hC (Or.inl (of_decide_eq_true h))
        · exact hC (Or.inr (of_decide_eq_true h))

/-- C9: with the discoverOnly flag set, start reports the discovery result
in the plugin status and creates zero engines, zero subscriptions and zero
publications; the tree is only read. -/
theorem c9_discover_only_no_side_effects (o : Options) (tree : Tree) (t : Nat)
    (h : o.discoverOnly = true) :
    (start o tree t).engines = [] ∧
    (start o tree t).subscriptions = [] ∧
    (start o tree t).published = [] ∧
    (start o tree t).status
      = discoverOnlyStatus (mergedConfigs o tree) (isAutoConfig o tree) := by
  have hstart : start o tree t =
      { engines := [], subscriptions := [], published := [],
        status := discoverOnlyStatus (mergedConfigs o tree) (isAutoConfig o tree) } := by
    unfold start
    rw [if_pos h]
  rw [hstart]
  exact ⟨rfl, rfl, rfl, rfl⟩

/-- witness for C9 at concrete inputs: discovery-only mode over a tree
holding two discoverable runtime paths. -/
theorem c9_witness :
    (oWDiscover.discoverOnly = true) ∧
    ((start oWDiscover treeW 0).engines = [] ∧
    (start oWDiscover treeW 0).subscriptions = [] ∧
    (start oWDiscover treeW 0).published = [] ∧
    (start oWDiscover treeW 0).status
      = discoverOnlyStatus (mergedConfigs oWDiscover treeW)
          (isAutoConfig oWDiscover treeW)) :=
  ⟨rfl, c9_discover_only_no_side_effects oWDiscover treeW 0 rfl⟩

/-- C10: createEngine rejects exactly the entries whose path is missing,
has fewer than three dot-separated segments or does not start with the
propulsion segment; start skips the rejected entries and still creates and
subscribes every valid one, finishing normally with the running status. -/
theorem c10_invalid_config_skipped (o : Options) (tree : Tree) (t : Nat)
    (hmode : o.discoverOnly = false) (hne : o.engines.length ≠ 0) :
    (∀ cfg, specInvalidEntry cfg = true ↔ createEngine tree.getPath cfg = none) ∧
    (start o tree t).engines
      = (o.engines.filterMap fun cfg =>
          (createEngine tree.getPath cfg).map (subscribe o t)).map Prod.fst ∧
    (start o tree t).subscriptions
      = (o.engines.filterMap fun cfg =>
          (createEngine tree.getPath cfg).map (subscribe o t)).flatMap Prod.snd ∧
    (∀ cfg en, cfg ∈ o.engines → createEngine tree.getPath cfg = some en →
      (subscribe o t en).1 ∈ (start o tree t).engines ∧
      en.path ∈ (start o tree t).subscriptions) ∧
    (start o tree t).status
      = "Running: Monitoring "
        ++ toString (o.engines.filterMap fun cfg =>
            (createEngine tree.getPath cfg).map (subscribe o t)).length
        ++ " engines." := by
  have hm : mergedConfigs o tree = o.engines := by
    unfold mergedConfigs
    rw [if_neg hne]
  have hstart : start o tree t =
      { engines := (o.engines.filterMap fun cfg =>
          (createEngine tree.getPath cfg).map (subscribe o t)).map Prod.fst
        subscriptions := (o.engines.filterMap fun cfg =>
          (createEngine tree.getPath cfg).map (subscribe o t)).flatMap Prod.snd
        published := []
        status := "Running: Monitoring "
          ++ toString (o.engines.filterMap fun cfg =>
              (createEngine tree.getPath cfg).map (subscribe o t)).length
          ++ " engines." } := by
    unfold start
    rw [hm, if_neg (by rw [hmode]; simp), if_neg hne]
  refine ⟨fun cfg => (createEngine_none_iff tree.getPath cfg).symm, by rw [hstart],
    by rw [hstart], ?_, by rw [hstart]⟩
  · intro cfg en hmem hcr
    constructor
    · rw [hstart]
      refine List.mem_map.2 ⟨subscribe o t en, ?_, rfl⟩
      exact List.mem_filterMap.2 ⟨cfg, hmem, by rw [hcr]; rfl⟩
    · rw [hstart]
      refine List.mem_flatMap.2 ⟨subscribe o t en, ?_, ?_⟩
      · exact List.mem_filterMap.2 ⟨cfg, hmem, by rw [hcr]; rfl⟩
      · show en.path ∈ en.path :: companionSubPaths o en
        exact List.mem_cons_self _ _

/-- witness for C10 at concrete inputs: one valid entry between an entry
with a missing path and one rooted outside propulsion. -/
theorem c10_witness :
    (oWMixed.discoverOnly = false) ∧
    (oWMixed.engines.length ≠ 0) ∧
    ((∀ cfg, specInvalidEntry cfg = true
        ↔ createEngine treeW.getPath cfg = none) ∧
    (start oWMixed treeW 0).engines
      = (oWMixed.engines.filterMap fun cfg =>
          (createEngine treeW.getPath cfg).map (subscribe oWMixed 0)).map
            Prod.fst ∧
    (start oWMixed treeW 0).subscriptions
      = (oWMixed.engines.filterMap fun cfg =>
          (createEngine treeW.getPath cfg).map (subscribe oWMixed 0)).flatMap
            Prod.snd ∧
    (∀ cfg en, cfg ∈ oWMixed.engines
        → createEngine treeW.getPath cfg = some en →
      (subscribe oWMixed 0 en).1 ∈ (start oWMixed treeW 0).engines ∧
      en.path ∈ (start oWMixed treeW 0).subscriptions) ∧
    (start oWMixed treeW 0).status
      = "Running: Monitoring "
        ++ toString (oWMixed.engines.filterMap fun cfg =>
            (createEngine treeW.getPath cfg).map (subscribe oWMixed 0)).length
        ++ " engines.") :=
  ⟨rfl, by decide,
    c10_invalid_config_skipped oWMixed treeW 0 rfl (by decide)⟩

end Keepalive
